import Mathlib

/-!
Formal model of the WireGuard configuration service
(`src/backend/modules/wireguard/service.go`).

Go strings are modelled as `List Char`; `strings.Split` with the
one-character separators used by the source (`"."` and `"/"`) is modelled
by `splitChar`; `fmt.Sscanf(s, "%d", &n)` is modelled by `parseInt`
(skip leading blanks, optional sign, a maximal run of decimal digits,
64-bit signed range check); `fmt.Sprintf("%d", i)` for the non-negative
values the source prints is modelled by `natToStr`.

External collaborators are modelled as explicit inputs: key/preshared-key
generation results, the fresh UUID, the values returned by successive
`time.Now()` calls, and the success of the durable `saveConfig` write.
The `StopInterface` collaborator is modelled by recording the list of
tags it is invoked with.
-/

/-- Go strings are modelled as lists of characters. -/
abbrev Str := List Char

/-- Embeds a Lean string literal as a `Str`. -/
def gstr (s : String) : Str := s.data

/-- One step of `splitChar`: either start a new empty part (when the
character is the separator) or extend the first part. -/
def consPart (c sep : Char) : List Str → List Str
  | [] => [[]]
  | p :: ps => if c = sep then [] :: p :: ps else (c :: p) :: ps

/-- Model of Go `strings.Split(s, sep)` for a one-character separator:
returns the (always non-empty) list of maximal runs between occurrences
of `sep`, keeping empty runs, exactly as Go does. -/
def splitChar (sep : Char) : Str → List Str
  | [] => [[]]
  | c :: rest => consPart c sep (splitChar sep rest)

/-- Value of a decimal digit character, `none` for a non-digit. -/
def digitVal (c : Char) : Option Nat :=
  if '0' ≤ c ∧ c ≤ '9' then some (c.toNat - '0'.toNat) else none

/-- Consume a maximal run of decimal digits, accumulating their value
most-significant-digit first, and return the value with the rest of the
input. -/
def takeDigits : Str → Nat → Nat × Str
  | [], acc => (acc, [])
  | c :: rest, acc =>
    match digitVal c with
    | some d => takeDigits rest (10 * acc + d)
    | none => (acc, c :: rest)

/-- Blanks skipped by the `fmt` scanner before a `%d` verb (a newline is
not skipped by `Sscanf` and makes the scan fail, so it is not a blank). -/
def isBlank (c : Char) : Bool := c = ' ' || c = '\t'

/-- Drop leading blanks. -/
def skipBlanks : Str → Str
  | [] => []
  | c :: rest => if isBlank c then skipBlanks rest else c :: rest

/-- Largest value of Go's 64-bit `int`. -/
def int64Max : Nat := 9223372036854775807

/-- Scan a run of decimal digits (at least one required) and apply the
sign and the `int64` range check, as `strconv`/`fmt` do for `%d`. -/
def parseDigitRun (s : Str) (neg : Bool) : Option Int :=
  match s with
  | [] => none
  | c :: _ =>
    match digitVal c with
    | none => none
    | some _ =>
      let v := (takeDigits s 0).1
      if neg then
        if v ≤ int64Max + 1 then some (-(v : Int)) else none
      else
        if v ≤ int64Max then some (v : Int) else none

/-- Model of the source's `parseInt` (`fmt.Sscanf(s, "%d", &n)`): skip
leading blanks, read an optional sign and then a run of decimal digits
(failing if there is none), range-check against `int64`, and ignore any
trailing characters. -/
def parseInt (s : Str) : Option Int :=
  match skipBlanks s with
  | [] => none
  | c :: rest =>
    if c = '-' then parseDigitRun rest true
    else if c = '+' then parseDigitRun rest false
    else parseDigitRun (c :: rest) false

/-- Decimal representation of a natural number (model of
`fmt.Sprintf("%d", i)` for the non-negative values the source prints). -/
def natToStr (n : Nat) : Str :=
  if n < 10 then [Nat.digitChar n]
  else natToStr (n / 10) ++ [Nat.digitChar (n % 10)]
termination_by n
decreasing_by exact Nat.div_lt_self (by omega) (by omega)

/-- Modelled from the spec: the client (peer) entity of §3; the struct
declaration (`types.go`) is not under `src/`, so the field list is taken
from the spec's data model together with the fields `service.go` uses. -/
structure WireGuardClient where
  ID : Str
  Name : Str
  Description : Str
  PrivateKey : Str
  PublicKey : Str
  PresharedKey : Str
  AllowedIPs : Str
  DNS : Str
  Enabled : Bool
  CreatedAt : Nat
deriving DecidableEq

/-- Modelled from the spec: the server entity of §3; the struct
declaration is not under `src/`, so the field list is taken from the
spec's data model together with the fields `service.go` uses.
Timestamps are opaque clock readings, modelled as naturals. -/
structure WireGuardServer where
  ID : Str
  Tag : Str
  Address : Str
  ListenPort : Int
  PrivateKey : Str
  PublicKey : Str
  MTU : Int
  DNS : Str
  Enabled : Bool
  CreatedAt : Nat
  UpdatedAt : Nat
  Clients : List WireGuardClient
deriving DecidableEq

/-- Modelled from the spec: the root persisted aggregate (the struct
declaration is not under `src/`). -/
structure WireGuardConfig where
  Servers : List WireGuardServer
deriving DecidableEq

/-- Modelled from the spec: result of the `GenerateKeyPair` collaborator. -/
structure KeyPair where
  PrivateKey : Str
  PublicKey : Str
deriving DecidableEq

/-- Errors returned by the service's operations (the Go code returns
error strings; each constructor stands for one of them, plus the
persistence and parse failures propagated from the standard library). -/
inductive GoErr
  | serverNotFound
  | clientNotFound
  | notFound
  | genKeyFailure
  | genPskFailure
  | saveFailure
  | parseFailure
deriving DecidableEq

/-- Result of `saveConfig`, driven by the explicit durable-write oracle:
the write either succeeds or returns an error. -/
def saveResult (saveOk : Bool) : Option GoErr :=
  if saveOk then none else some .saveFailure

/-- State of the backing store file seen by `loadConfig`
(`os.ReadFile` + `json.Unmarshal`): absent, present but undecodable, or
present and decoding to a document. -/
inductive FileState
  | absent
  | malformed
  | valid (cfg : WireGuardConfig)

/-- Model of `loadConfig`: a missing file yields the empty document and
no error; a malformed file leaves the service's zero-value document in
place and returns the `json.Unmarshal` error; a well-formed file yields
its document.  Returns the resulting in-memory document together with
the returned error. -/
def loadConfig (f : FileState) : WireGuardConfig × Option GoErr :=
  match f with
  | .absent => (⟨[]⟩, none)
  | .malformed => (⟨[]⟩, some .parseFailure)
  | .valid cfg => (cfg, none)

/-- Model of `NewService`: builds the service and calls `loadConfig`,
discarding its returned error (the Go source calls `s.loadConfig()`
without using the result), so the constructed service's document is
whatever `loadConfig` left in memory.  The service state the operations
act on is its document. -/
def NewService (f : FileState) : WireGuardConfig :=
  (loadConfig f).1

/-- Model of `GetServers`: returns the in-memory server list. -/
def GetServers (cfg : WireGuardConfig) : List WireGuardServer :=
  cfg.Servers

/-- Host octet the allocator reads out of an address string: the part
before the first `/`, split on `.`; if that yields exactly four parts
and the fourth parses as an integer, that integer, else nothing.  This
is the computation `allocateClientIP` performs for the server's own
address and for each client's `AllowedIPs`. -/
def addrOctet (a : Str) : Option Int :=
  let ip := (splitChar '/' a).headI
  let ipParts := splitChar '.' ip
  if ipParts.length = 4 then parseInt (ipParts.getD 3 []) else none

/-- The loop of `allocateClientIP` that collects the used host octets of
the existing clients into the `usedIPs` set (modelled as a list, only
membership matters). -/
def collectUsed : List WireGuardClient → List Int → List Int
  | [], used => used
  | c :: rest, used =>
    match addrOctet c.AllowedIPs with
    | some n => collectUsed rest (used ++ [n])
    | none => collectUsed rest used

/-- The full `usedIPs` set of `allocateClientIP`: the server's own host
octet (when it parses) plus every client's host octet (when it parses). -/
def usedIPs (server : WireGuardServer) : List Int :=
  collectUsed server.Clients
    (match addrOctet server.Address with
     | some n => [n]
     | none => [])

/-- The `/24`-style prefix `allocateClientIP` derives from the server's
address parts (`fmt.Sprintf("%s.%s.%s", parts[0], parts[1], parts[2])`). -/
def addrPfx (parts : List Str) : Str :=
  parts.getD 0 [] ++ gstr "." ++ parts.getD 1 [] ++ gstr "." ++ parts.getD 2 []

/-- Model of `allocateClientIP`: take the part of the server's address
before `/`; if it does not split into four dot-separated parts return
the fixed fallback `10.0.0.2/32`; otherwise scan host octets 2..254 and
return the first one not in `usedIPs` as `A.B.C.<octet>/32`; if all are
used, return `A.B.C.<clientCount+2>/32`. -/
def allocateClientIP (server : WireGuardServer) : Str :=
  let baseIP := (splitChar '/' server.Address).headI
  let parts := splitChar '.' baseIP
  if parts.length ≠ 4 then gstr "10.0.0.2/32"
  else
    let used := usedIPs server
    match (List.range 253).find? (fun (i : Nat) => ! decide (((i : Int) + 2) ∈ used)) with
    | some i => addrPfx parts ++ gstr "." ++ natToStr (i + 2) ++ gstr "/32"
    | none => addrPfx parts ++ gstr "." ++ natToStr (server.Clients.length + 2) ++ gstr "/32"

/-- Model of `CreateServer`.  Oracles: the key-pair generation result
(`none` when the collaborator fails), the fresh UUID, the two successive
`time.Now()` readings (`t1` stamps `CreatedAt`, `t2` stamps
`UpdatedAt`), and the durable-write outcome.  Returns the error, the
new document, and the populated draft (the Go function mutates the
caller's draft in place; on an early failure the draft is returned
unchanged). -/
def CreateServer (cfg : WireGuardConfig) (draft : WireGuardServer)
    (kpGen : Option KeyPair) (newID : Str) (t1 t2 : Nat) (saveOk : Bool) :
    Option GoErr × WireGuardConfig × WireGuardServer :=
  match kpGen with
  | none => (some .genKeyFailure, cfg, draft)
  | some kp =>
    let server : WireGuardServer := { draft with
      ID := newID
      PrivateKey := kp.PrivateKey
      PublicKey := kp.PublicKey
      CreatedAt := t1
      UpdatedAt := t2
      Clients := []
      MTU := if draft.MTU = 0 then 1420 else draft.MTU
      DNS := if draft.DNS = [] then gstr "1.1.1.1,8.8.8.8" else draft.DNS }
    (saveResult saveOk, ⟨cfg.Servers ++ [server]⟩, server)

/-- The loop of `DeleteServer`: find the first server with the given ID;
record the stop-interface invocation (the server's tag) when that server
is enabled, and remove the server.  `none` when no server matches. -/
def deleteServerLoop (id : Str) : List WireGuardServer → Option (List Str × List WireGuardServer)
  | [] => none
  | srv :: rest =>
    if srv.ID = id then
      some (if srv.Enabled then [srv.Tag] else [], rest)
    else
      match deleteServerLoop id rest with
      | some (stops, rest') => some (stops, srv :: rest')
      | none => none

/-- Model of `DeleteServer`: on a match, `StopInterface` is invoked with
the server's tag when the server is enabled (the third component records
those invocations, in order; the invocation happens before the removal
and the save in the Go loop body), the server is removed and the
document saved; otherwise the not-found error is returned. -/
def DeleteServer (cfg : WireGuardConfig) (id : Str) (saveOk : Bool) :
    Option GoErr × WireGuardConfig × List Str :=
  match deleteServerLoop id cfg.Servers with
  | some (stops, servers') => (saveResult saveOk, ⟨servers'⟩, stops)
  | none => (some .serverNotFound, cfg, [])

/-- The client record `AddClient` builds inside the matched server: the
caller's draft with generated identity and keys filled in, enabled, the
creation time stamped, the allowed-IP allocated when the draft leaves it
empty, and the DNS inherited from the server when the draft leaves it
empty (each `if` reads the original draft field, as the Go code checks
the field before overwriting it). -/
def mkAddedClient (draft : WireGuardClient) (kp : KeyPair) (psk newID : Str)
    (now : Nat) (srv : WireGuardServer) : WireGuardClient :=
  { draft with
    ID := newID
    PrivateKey := kp.PrivateKey
    PublicKey := kp.PublicKey
    PresharedKey := psk
    Enabled := true
    CreatedAt := now
    AllowedIPs := if draft.AllowedIPs = [] then allocateClientIP srv else draft.AllowedIPs
    DNS := if draft.DNS = [] then srv.DNS else draft.DNS }

/-- The loop of `AddClient`: the body runs entirely inside the first
server whose ID matches and returns from there (generation failures
included), so the loop result carries either the error or the populated
client, together with the updated server list.  `none` when no server
matches. -/
def addClientLoop (serverID : Str) (draft : WireGuardClient) (kpGen : Option KeyPair)
    (pskGen : Option Str) (newID : Str) (now : Nat) :
    List WireGuardServer → Option (Except GoErr WireGuardClient × List WireGuardServer)
  | [] => none
  | srv :: rest =>
    if srv.ID = serverID then
      match kpGen with
      | none => some (.error .genKeyFailure, srv :: rest)
      | some kp =>
        match pskGen with
        | none => some (.error .genPskFailure, srv :: rest)
        | some psk =>
          let client := mkAddedClient draft kp psk newID now srv
          some (.ok client, { srv with Clients := srv.Clients ++ [client] } :: rest)
    else
      match addClientLoop serverID draft kpGen pskGen newID now rest with
      | some (r, rest') => some (r, srv :: rest')
      | none => none

/-- Model of `AddClient`.  Oracles: key pair, preshared key, fresh UUID,
`time.Now()` reading, durable-write outcome.  Returns the error, the new
document, and the populated client draft (unchanged on failure paths,
as in the Go source where the caller's draft is mutated in place). -/
def AddClient (cfg : WireGuardConfig) (serverID : Str) (draft : WireGuardClient)
    (kpGen : Option KeyPair) (pskGen : Option Str) (newID : Str) (now : Nat) (saveOk : Bool) :
    Option GoErr × WireGuardConfig × WireGuardClient :=
  match addClientLoop serverID draft kpGen pskGen newID now cfg.Servers with
  | some (.ok client, servers') => (saveResult saveOk, ⟨servers'⟩, client)
  | some (.error e, servers') => (some e, ⟨servers'⟩, draft)
  | none => (some .serverNotFound, cfg, draft)

/-- The loop of `UpdateServer`: the first server whose ID matches the
draft's is replaced by the draft with `UpdatedAt` restamped and the
stored private key, public key, client list and creation timestamp
force-restored.  `none` when no server matches. -/
def updateServerLoop (draft : WireGuardServer) (now : Nat) :
    List WireGuardServer → Option (List WireGuardServer)
  | [] => none
  | srv :: rest =>
    if srv.ID = draft.ID then
      some ({ draft with
        UpdatedAt := now
        PrivateKey := srv.PrivateKey
        PublicKey := srv.PublicKey
        Clients := srv.Clients
        CreatedAt := srv.CreatedAt } :: rest)
    else
      match updateServerLoop draft now rest with
      | some rest' => some (srv :: rest')
      | none => none

/-- Model of `UpdateServer`.  Oracles: the `time.Now()` reading and the
durable-write outcome. -/
def UpdateServer (cfg : WireGuardConfig) (draft : WireGuardServer) (now : Nat)
    (saveOk : Bool) : Option GoErr × WireGuardConfig :=
  match updateServerLoop draft now cfg.Servers with
  | some servers' => (saveResult saveOk, ⟨servers'⟩)
  | none => (some .serverNotFound, cfg)

/-- Inner loop of `DeleteClient`: remove the first client with the given
ID, preserving the order of the rest; `none` when no client matches. -/
def deleteClientInner (clientID : Str) : List WireGuardClient → Option (List WireGuardClient)
  | [] => none
  | c :: rest =>
    if c.ID = clientID then some rest
    else
      match deleteClientInner clientID rest with
      | some rest' => some (c :: rest')
      | none => none

/-- Outer loop of `DeleteClient`: inside each server whose ID matches,
look for the client; when the client is not there the outer loop keeps
scanning the remaining servers (the Go loop has no `break`). -/
def deleteClientLoop (serverID clientID : Str) :
    List WireGuardServer → Option (List WireGuardServer)
  | [] => none
  | srv :: rest =>
    let next :=
      match deleteClientLoop serverID clientID rest with
      | some rest' => some (srv :: rest')
      | none => none
    if srv.ID = serverID then
      match deleteClientInner clientID srv.Clients with
      | some clients' => some ({ srv with Clients := clients' } :: rest)
      | none => next
    else next

/-- Model of `DeleteClient`. -/
def DeleteClient (cfg : WireGuardConfig) (serverID clientID : Str) (saveOk : Bool) :
    Option GoErr × WireGuardConfig :=
  match deleteClientLoop serverID clientID cfg.Servers with
  | some servers' => (saveResult saveOk, ⟨servers'⟩)
  | none => (some .notFound, cfg)

/-- Inner loop of `UpdateClient`: on the first client whose ID matches,
set the name only when the supplied name is non-empty, always overwrite
description and enabled flag, and return the updated client (the
snapshot the Go code reads back) with the updated list. -/
def updateClientInner (clientID name description : Str) (enabled : Bool) :
    List WireGuardClient → Option (WireGuardClient × List WireGuardClient)
  | [] => none
  | c :: rest =>
    if c.ID = clientID then
      let c' : WireGuardClient := { c with
        Name := if name = [] then c.Name else name
        Description := description
        Enabled := enabled }
      some (c', c' :: rest)
    else
      match updateClientInner clientID name description enabled rest with
      | some (snap, rest') => some (snap, c :: rest')
      | none => none

/-- Outer loop of `UpdateClient`: like `deleteClientLoop`, keeps
scanning past a matching server that does not contain the client. -/
def updateClientLoop (serverID clientID name description : Str) (enabled : Bool) :
    List WireGuardServer → Option (WireGuardClient × List WireGuardServer)
  | [] => none
  | srv :: rest =>
    let next :=
      match updateClientLoop serverID clientID name description enabled rest with
      | some (snap, rest') => some (snap, srv :: rest')
      | none => none
    if srv.ID = serverID then
      match updateClientInner clientID name description enabled srv.Clients with
      | some (snap, clients') => some (snap, { srv with Clients := clients' } :: rest)
      | none => next
    else next

/-- Model of `UpdateClient`: on success returns the updated client
snapshot; when the save fails the Go function returns `nil, err` but the
in-memory document keeps the mutation. -/
def UpdateClient (cfg : WireGuardConfig) (serverID clientID name description : Str)
    (enabled : Bool) (saveOk : Bool) : Except GoErr WireGuardClient × WireGuardConfig :=
  match updateClientLoop serverID clientID name description enabled cfg.Servers with
  | some (snap, servers') =>
    if saveOk then (.ok snap, ⟨servers'⟩) else (.error .saveFailure, ⟨servers'⟩)
  | none => (.error .clientNotFound, cfg)

/-- Key pair used by concrete instantiations. -/
def kp0 : KeyPair := ⟨gstr "priv0", gstr "pub0"⟩

/-- Server draft used by concrete instantiations: MTU and DNS left unset
(Go zero values). -/
def draftS : WireGuardServer :=
  ⟨[], gstr "wg0", gstr "10.0.0.1/24", 51820, [], [], 0, [], false, 0, 0, []⟩

/-- Builds a client with a given ID and allowed-IP string. -/
def mkC (i a : Str) : WireGuardClient :=
  ⟨i, gstr "laptop", gstr "old", gstr "cpriv", gstr "cpub", gstr "cpsk", a,
   gstr "1.1.1.1", true, 5⟩

/-- Concrete server with one in-prefix sibling, one sibling in a foreign
prefix, and one sibling whose address does not parse. -/
def srvA : WireGuardServer :=
  ⟨gstr "sid", gstr "wg0", gstr "10.0.0.1/24", 51820, gstr "spriv", gstr "spub",
   1420, gstr "1.1.1.1,8.8.8.8", true, 1, 2,
   [mkC (gstr "c1") (gstr "10.0.0.2/32"),
    mkC (gstr "c2") (gstr "192.168.7.3/32"),
    mkC (gstr "c3") (gstr "10.0.0.bad/32")]⟩

/-- Concrete document holding `srvA`. -/
def cfgA : WireGuardConfig := ⟨[srvA]⟩

/-- Decimal representation of a host octet below 1000, written without
recursion so that concrete instances evaluate inside `decide` (unlike
`natToStr`, whose well-founded recursion does not reduce definitionally;
the two agree on this range, which is all the fixtures need). -/
def octStr (n : Nat) : Str :=
  if n < 10 then [Nat.digitChar n]
  else if n < 100 then [Nat.digitChar (n / 10), Nat.digitChar (n % 10)]
  else [Nat.digitChar (n / 100), Nat.digitChar (n / 10 % 10), Nat.digitChar (n % 10)]

/-- 253 clients whose addresses occupy every host octet 2..254. -/
def exhClients : List WireGuardClient :=
  (List.range 253).map (fun k => mkC (octStr k) (gstr "10.0.0." ++ octStr (k + 2) ++ gstr "/32"))

/-- Server whose subnet is exhausted: its own octet is 1 and its clients
cover 2..254. -/
def exhSrv : WireGuardServer :=
  ⟨gstr "sid", gstr "wg0", gstr "10.0.0.1/24", 51820, gstr "spriv", gstr "spub",
   1420, gstr "1.1.1.1,8.8.8.8", true, 1, 2, exhClients⟩

/-- The used-octet set of `exhSrv`, written out: 1 through 254. -/
def usedLit : List Int := (List.range 254).map (fun k => (k : Int) + 1)

/-- Update draft targeting `srvA` that tries to overwrite the immutable
fields: different keys, creation timestamp and client list. -/
def draftB : WireGuardServer :=
  ⟨gstr "sid", gstr "wg9", gstr "10.1.2.1/24", 51999, gstr "EVILpriv", gstr "EVILpub",
   0, [], true, 77, 88, [mkC (gstr "zz") (gstr "10.1.2.9/32")]⟩

/-- The result of `splitChar` is never the empty list of parts. -/
theorem splitChar_ne_nil (sep : Char) (s : Str) : splitChar sep s ≠ [] := by
  cases s with
  | nil => simp [splitChar]
  | cons c rest =>
    simp only [splitChar]
    cases splitChar sep rest with
    | nil => simp [consPart]
    | cons p ps =>
      simp only [consPart]
      split <;> simp

/-- The separator never occurs inside a part produced by `splitChar`. -/
theorem mem_splitChar_not_mem {sep : Char} {s p : Str}
    (hp : p ∈ splitChar sep s) : sep ∉ p := by
  induction s generalizing p with
  | nil =>
    simp [splitChar] at hp
    subst hp; simp
  | cons c rest ih =>
    simp only [splitChar] at hp
    cases h : splitChar sep rest with
    | nil => exact absurd h (splitChar_ne_nil sep rest)
    | cons q qs =>
      rw [h] at hp
      simp only [consPart] at hp
      by_cases hc : c = sep
      · rw [if_pos hc] at hp
        rcases List.mem_cons.1 hp with rfl | hp'
        · simp
        · exact ih (h ▸ hp')
      · rw [if_neg hc] at hp
        rcases List.mem_cons.1 hp with rfl | hp'
        · intro hmem
          rcases List.mem_cons.1 hmem with h1 | h1
          · exact hc h1.symm
          · exact ih (h ▸ List.mem_cons_self q qs) h1
        · exact ih (h ▸ List.mem_cons_of_mem q hp')

/-- Every character of a part produced by `splitChar` occurs in the
input. -/
theorem mem_of_mem_splitChar {sep : Char} {s p : Str} {a : Char}
    (hp : p ∈ splitChar sep s) (ha : a ∈ p) : a ∈ s := by
  induction s generalizing p with
  | nil =>
    simp [splitChar] at hp
    subst hp; simp at ha
  | cons c rest ih =>
    simp only [splitChar] at hp
    cases h : splitChar sep rest with
    | nil => exact absurd h (splitChar_ne_nil sep rest)
    | cons q qs =>
      rw [h] at hp
      simp only [consPart] at hp
      by_cases hc : c = sep
      · rw [if_pos hc] at hp
        rcases List.mem_cons.1 hp with rfl | hp'
        · simp at ha
        · exact List.mem_cons_of_mem c (ih (h ▸ hp') ha)
      · rw [if_neg hc] at hp
        rcases List.mem_cons.1 hp with rfl | hp'
        · rcases List.mem_cons.1 ha with rfl | ha'
          · exact List.mem_cons_self a rest
          · exact List.mem_cons_of_mem c (ih (h ▸ List.mem_cons_self q qs) ha')
        · exact List.mem_cons_of_mem c (ih (h ▸ List.mem_cons_of_mem q hp') ha)

/-- Splitting a string free of the separator yields that one part. -/
theorem splitChar_of_not_mem {sep : Char} {s : Str} (h : sep ∉ s) :
    splitChar sep s = [s] := by
  induction s with
  | nil => rfl
  | cons c rest ih =>
    have h1 : ¬ c = sep := fun hh => h (hh ▸ List.mem_cons_self c rest)
    have h2 : sep ∉ rest := fun hh => h (List.mem_cons_of_mem c hh)
    simp only [splitChar, ih h2, consPart]
    rw [if_neg h1]

/-- Splitting at a leading separator produces a leading empty part. -/
theorem splitChar_cons_sep (sep : Char) (t : Str) :
    splitChar sep (sep :: t) = [] :: splitChar sep t := by
  simp only [splitChar]
  cases h : splitChar sep t with
  | nil => exact absurd h (splitChar_ne_nil sep t)
  | cons p ps => simp [consPart]

/-- Prepending a separator-free string extends the first part of the
split. -/
theorem splitChar_append {sep : Char} {s : Str} (hs : sep ∉ s) {t p : Str}
    {ps : List Str} (ht : splitChar sep t = p :: ps) :
    splitChar sep (s ++ t) = (s ++ p) :: ps := by
  induction s with
  | nil => simpa using ht
  | cons c rest ih =>
    have h1 : ¬ c = sep := fun hh => hs (hh ▸ List.mem_cons_self c rest)
    have h2 : sep ∉ rest := fun hh => hs (List.mem_cons_of_mem c hh)
    show consPart c sep (splitChar sep (rest ++ t)) = (c :: (rest ++ p)) :: ps
    rw [ih h2]
    simp only [consPart]
    rw [if_neg h1]

/-- digitChar of a value below ten is read back by digitVal. -/
theorem digitVal_digitChar {d : Nat} (h : d < 10) :
    digitVal (Nat.digitChar d) = some d := by
  interval_cases d <;> decide

/-- A digit character is not a blank, a sign, a dot or a slash. -/
theorem digit_not_special {c : Char} (h : (digitVal c).isSome) :
    isBlank c = false ∧ c ≠ '-' ∧ c ≠ '+' ∧ c ≠ '.' ∧ c ≠ '/' := by
  have hs : c ≠ ' ' := fun hh => absurd (hh ▸ h) (by decide)
  have ht : c ≠ '\t' := fun hh => absurd (hh ▸ h) (by decide)
  refine ⟨by simp [isBlank, hs, ht], ?_, ?_, ?_, ?_⟩
  · exact fun hh => absurd (hh ▸ h) (by decide)
  · exact fun hh => absurd (hh ▸ h) (by decide)
  · exact fun hh => absurd (hh ▸ h) (by decide)
  · exact fun hh => absurd (hh ▸ h) (by decide)

/-- Every character of a printed natural number is a decimal digit. -/
theorem natToStr_digits : ∀ n : Nat, ∀ c ∈ natToStr n, (digitVal c).isSome := by
  intro n
  induction n using Nat.strong_induction_on with
  | _ n ih =>
    intro c hc
    rw [natToStr] at hc
    by_cases h : n < 10
    · rw [if_pos h] at hc
      rcases List.mem_singleton.1 hc with rfl
      rw [digitVal_digitChar h]; rfl
    · rw [if_neg h] at hc
      rcases List.mem_append.1 hc with h1 | h1
      · exact ih (n / 10) (Nat.div_lt_self (by omega) (by omega)) c h1
      · rcases List.mem_singleton.1 h1 with rfl
        rw [digitVal_digitChar (Nat.mod_lt n (by omega))]; rfl

/-- A printed natural number is never the empty string. -/
theorem natToStr_ne_nil (n : Nat) : natToStr n ≠ [] := by
  rw [natToStr]
  by_cases h : n < 10
  · rw [if_pos h]; simp
  · rw [if_neg h]; simp

/-- Length of the digit step. -/
theorem natToStr_length_step {n : Nat} (h : ¬ n < 10) :
    (natToStr n).length = (natToStr (n / 10)).length + 1 := by
  conv_lhs => rw [natToStr]
  rw [if_neg h, List.length_append]
  rfl

/-- Scanning the digits of a printed natural number consumes exactly
them, shifting the accumulator past them. -/
theorem takeDigits_natToStr : ∀ n : Nat, ∀ t : Str, ∀ acc : Nat,
    takeDigits (natToStr n ++ t) acc =
      takeDigits t (acc * 10 ^ (natToStr n).length + n) := by
  intro n
  induction n using Nat.strong_induction_on with
  | _ n ih =>
    intro t acc
    by_cases h : n < 10
    · have hstep : natToStr n = [Nat.digitChar n] := by
        rw [natToStr, if_pos h]
      rw [hstep]
      simp only [List.singleton_append, takeDigits, digitVal_digitChar h,
        List.length_singleton]
      congr 1
      ring
    · have hstep : natToStr n = natToStr (n / 10) ++ [Nat.digitChar (n % 10)] := by
        conv_lhs => rw [natToStr]
        rw [if_neg h]
      rw [hstep, List.append_assoc,
        ih (n / 10) (Nat.div_lt_self (by omega) (by omega)),
        List.singleton_append]
      simp only [takeDigits, digitVal_digitChar (Nat.mod_lt n (by omega))]
      congr 1
      rw [List.length_append, List.length_singleton, pow_succ]
      have harr : acc * (10 ^ (natToStr (n / 10)).length * 10)
          = 10 * (acc * 10 ^ (natToStr (n / 10)).length) := by ring
      rw [harr]
      generalize acc * 10 ^ (natToStr (n / 10)).length = m
      omega

/-- parseInt reads back exactly the printed natural number when it fits
in an `int64`. -/
theorem parseInt_natToStr {n : Nat} (h : n ≤ int64Max) :
    parseInt (natToStr n) = some (n : Int) := by
  obtain ⟨c, r, hc⟩ : ∃ c r, natToStr n = c :: r := by
    cases hh : natToStr n with
    | nil => exact absurd hh (natToStr_ne_nil n)
    | cons c r => exact ⟨c, r, rfl⟩
  have hdig : (digitVal c).isSome := natToStr_digits n c (hc ▸ List.mem_cons_self c r)
  obtain ⟨hbl, hminus, hplus, _, _⟩ := digit_not_special hdig
  have hskip : skipBlanks (c :: r) = c :: r := by
    simp only [skipBlanks, hbl, Bool.false_eq_true, if_false]
  have htake : (takeDigits (c :: r) 0).1 = n := by
    have := takeDigits_natToStr n [] 0
    rw [hc] at this
    simp only [List.append_nil] at this
    rw [this]
    simp [takeDigits]
  rw [hc, parseInt, hskip]
  show (if c = '-' then parseDigitRun r true
        else if c = '+' then parseDigitRun r false
        else parseDigitRun (c :: r) false) = some (n : Int)
  rw [if_neg hminus, if_neg hplus]
  obtain ⟨d, hd⟩ := Option.isSome_iff_exists.1 hdig
  simp only [parseDigitRun, hd, htake]
  simp [h]

/-- A printed natural number contains no dot and no slash. -/
theorem natToStr_no_dot_slash (n : Nat) : '.' ∉ natToStr n ∧ '/' ∉ natToStr n := by
  constructor
  · intro hmem
    exact absurd (natToStr_digits n _ hmem) (by decide)
  · intro hmem
    exact absurd (natToStr_digits n _ hmem) (by decide)

/-- Membership in the collected used-octet set: exactly the octets the
loop can extract, regardless of any prefix. -/
theorem mem_collectUsed (clients : List WireGuardClient) (acc : List Int) (x : Int) :
    x ∈ collectUsed clients acc ↔
      x ∈ acc ∨ ∃ c ∈ clients, addrOctet c.AllowedIPs = some x := by
  induction clients generalizing acc with
  | nil => simp [collectUsed]
  | cons c rest ih =>
    simp only [collectUsed]
    cases h : addrOctet c.AllowedIPs with
    | none =>
      rw [ih]
      constructor
      · rintro (hx | ⟨c', hc', hx⟩)
        · exact Or.inl hx
        · exact Or.inr ⟨c', List.mem_cons_of_mem c hc', hx⟩
      · rintro (hx | ⟨c', hc', hx⟩)
        · exact Or.inl hx
        · rcases List.mem_cons.1 hc' with rfl | hc''
          · rw [h] at hx; cases hx
          · exact Or.inr ⟨c', hc'', hx⟩
    | some n =>
      rw [ih]
      constructor
      · rintro (hx | ⟨c', hc', hx⟩)
        · rcases List.mem_append.1 hx with hx' | hx'
          · exact Or.inl hx'
          · rcases List.mem_singleton.1 hx' with rfl
            exact Or.inr ⟨c, List.mem_cons_self c rest, h⟩
        · exact Or.inr ⟨c', List.mem_cons_of_mem c hc', hx⟩
      · rintro (hx | ⟨c', hc', hx⟩)
        · exact Or.inl (List.mem_append.2 (Or.inl hx))
        · rcases List.mem_cons.1 hc' with rfl | hc''
          · rw [h] at hx
            obtain rfl : n = x := by injection hx
            exact Or.inl (List.mem_append.2 (Or.inr (List.mem_singleton.2 rfl)))
          · exact Or.inr ⟨c', hc'', hx⟩

/-- Membership in the allocator's used-octet set: the server's own host
octet plus every client's host octet, each read solely from the fourth
dot-separated component, prefixes playing no role. -/
theorem mem_usedIPs (server : WireGuardServer) (x : Int) :
    x ∈ usedIPs server ↔
      addrOctet server.Address = some x ∨
        ∃ c ∈ server.Clients, addrOctet c.AllowedIPs = some x := by
  unfold usedIPs
  cases h : addrOctet server.Address with
  | none =>
    rw [mem_collectUsed]
    simp [h]
  | some n =>
    rw [mem_collectUsed]
    simp only [h, List.mem_singleton, Option.some.injEq]
    constructor
    · rintro (rfl | hx)
      · exact Or.inl rfl
      · exact Or.inr hx
    · rintro (rfl | hx)
      · exact Or.inl rfl
      · exact Or.inr hx

/-- A list of length four is literally four elements. -/
theorem length_four_cases {α : Type} {l : List α} (h : l.length = 4) :
    ∃ a b c d, l = [a, b, c, d] := by
  cases l with
  | nil => simp at h
  | cons a l1 =>
    cases l1 with
    | nil => simp at h
    | cons b l2 =>
      cases l2 with
      | nil => simp at h
      | cons c l3 =>
        cases l3 with
        | nil => simp at h
        | cons d l4 =>
          cases l4 with
          | nil => exact ⟨a, b, c, d, rfl⟩
          | cons e l5 => simp at h

/-- An address assembled by the allocator out of dot-free, slash-free
parts and a printed octet parses back to exactly that octet. -/
theorem addrOctet_built (p0 p1 p2 : Str) (N : Nat) (hN : N ≤ int64Max)
    (h0d : '.' ∉ p0) (h0s : '/' ∉ p0) (h1d : '.' ∉ p1) (h1s : '/' ∉ p1)
    (h2d : '.' ∉ p2) (h2s : '/' ∉ p2) :
    addrOctet ((p0 ++ gstr "." ++ p1 ++ gstr "." ++ p2) ++ gstr "." ++ natToStr N ++ gstr "/32")
      = some (N : Int) := by
  have hdot : gstr "." = ['.'] := rfl
  have hnd := (natToStr_no_dot_slash N).1
  have hns := (natToStr_no_dot_slash N).2
  have hpres : '/' ∉ (p0 ++ gstr "." ++ p1 ++ gstr "." ++ p2) ++ gstr "." ++ natToStr N := by
    rw [hdot]
    simp [List.mem_append, h0s, h1s, h2s, hns,
      (by decide : ('/' : Char) ≠ '.')]
  have hsplit1 : splitChar '/' (((p0 ++ gstr "." ++ p1 ++ gstr "." ++ p2) ++ gstr "." ++ natToStr N) ++ gstr "/32")
      = [(p0 ++ gstr "." ++ p1 ++ gstr "." ++ p2) ++ gstr "." ++ natToStr N, ['3', '2']] := by
    have ht : splitChar '/' ('/' :: ['3', '2']) = [] :: [['3', '2']] := by
      rw [splitChar_cons_sep, splitChar_of_not_mem (by decide)]
    have := splitChar_append hpres ht
    simpa using this
  have s3 : splitChar '.' (natToStr N) = [natToStr N] := splitChar_of_not_mem hnd
  have s2 : splitChar '.' (p2 ++ '.' :: natToStr N) = [p2, natToStr N] := by
    have ht : splitChar '.' ('.' :: natToStr N) = [] :: [natToStr N] := by
      rw [splitChar_cons_sep, s3]
    simpa using splitChar_append h2d ht
  have s1 : splitChar '.' (p1 ++ '.' :: (p2 ++ '.' :: natToStr N)) = [p1, p2, natToStr N] := by
    have ht : splitChar '.' ('.' :: (p2 ++ '.' :: natToStr N)) = [] :: [p2, natToStr N] := by
      rw [splitChar_cons_sep, s2]
    simpa using splitChar_append h1d ht
  have s0 : splitChar '.' (p0 ++ '.' :: (p1 ++ '.' :: (p2 ++ '.' :: natToStr N)))
      = [p0, p1, p2, natToStr N] := by
    have ht : splitChar '.' ('.' :: (p1 ++ '.' :: (p2 ++ '.' :: natToStr N)))
        = [] :: [p1, p2, natToStr N] := by
      rw [splitChar_cons_sep, s1]
    simpa using splitChar_append h0d ht
  have hinner : splitChar '.' ((p0 ++ gstr "." ++ p1 ++ gstr "." ++ p2) ++ gstr "." ++ natToStr N)
      = [p0, p1, p2, natToStr N] := by
    have e1 : (p0 ++ gstr "." ++ p1 ++ gstr "." ++ p2) ++ gstr "." ++ natToStr N
        = p0 ++ '.' :: (p1 ++ '.' :: (p2 ++ '.' :: natToStr N)) := by
      rw [hdot]
      simp [List.append_assoc]
    rw [e1, s0]
  simp only [addrOctet, List.append_assoc] at *
  rw [hsplit1]
  simp only [List.headI]
  rw [hinner]
  simp [parseInt_natToStr hN]

/-- When the server address has a four-part dot split and some octet in
[2,254] is unused, the allocator returns the first such octet, formatted
over the server's prefix. -/
theorem allocateClientIP_found (server : WireGuardServer)
    (hlen : (splitChar '.' ((splitChar '/' server.Address).headI)).length = 4)
    (hfree : ∃ i : Nat, i < 253 ∧ ((i : Int) + 2) ∉ usedIPs server) :
    ∃ N : Nat, 2 ≤ N ∧ N ≤ 254 ∧ ((N : Int) ∉ usedIPs server) ∧
      allocateClientIP server =
        addrPfx (splitChar '.' ((splitChar '/' server.Address).headI))
          ++ gstr "." ++ natToStr N ++ gstr "/32" := by
  simp only [allocateClientIP]
  rw [if_neg (not_not_intro hlen)]
  cases hf : (List.range 253).find? (fun (i : Nat) => ! decide (((i : Int) + 2) ∈ usedIPs server)) with
  | none =>
    obtain ⟨i, hi, hni⟩ := hfree
    exfalso
    have := List.find?_eq_none.1 hf i (List.mem_range.2 hi)
    simp at this
    exact hni this
  | some i =>
    have hp := List.find?_some hf
    have hi : i < 253 := List.mem_range.1 (List.mem_of_find?_eq_some hf)
    refine ⟨i + 2, by omega, by omega, ?_, rfl⟩
    have hni : ¬ (((i : Int) + 2) ∈ usedIPs server) := by simpa using hp
    push_cast
    exact hni

/-- When every octet in [2,254] is used (and the address splits into
four parts), the allocator falls back to clientCount + 2. -/
theorem allocateClientIP_exhausted (server : WireGuardServer)
    (hlen : (splitChar '.' ((splitChar '/' server.Address).headI)).length = 4)
    (hall : ∀ i : Nat, i < 253 → ((i : Int) + 2) ∈ usedIPs server) :
    allocateClientIP server =
      addrPfx (splitChar '.' ((splitChar '/' server.Address).headI))
        ++ gstr "." ++ natToStr (server.Clients.length + 2) ++ gstr "/32" := by
  simp only [allocateClientIP]
  rw [if_neg (not_not_intro hlen)]
  have hnone : (List.range 253).find?
      (fun (i : Nat) => ! decide (((i : Int) + 2) ∈ usedIPs server)) = none := by
    rw [List.find?_eq_none]
    intro i hi
    simp [hall i (List.mem_range.1 hi)]
  rw [hnone]

/-- The head part of a split is a member of the split. -/
theorem headI_mem_splitChar (sep : Char) (s : Str) :
    (splitChar sep s).headI ∈ splitChar sep s := by
  cases hsp : splitChar sep s with
  | nil => exact absurd hsp (splitChar_ne_nil sep s)
  | cons q qs => simp

/-- Every address the allocator can return parses back into four
dot-separated parts with an integer fourth octet (given physically
possible client counts, so that the printed fallback octet fits in an
`int64`). -/
theorem allocateClientIP_parses (server : WireGuardServer)
    (hcnt : server.Clients.length + 2 ≤ int64Max) :
    (addrOctet (allocateClientIP server)).isSome := by
  by_cases hlen : (splitChar '.' ((splitChar '/' server.Address).headI)).length = 4
  · obtain ⟨p0, p1, p2, p3, hparts⟩ := length_four_cases hlen
    have hbs : '/' ∉ (splitChar '/' server.Address).headI :=
      mem_splitChar_not_mem (headI_mem_splitChar '/' server.Address)
    have hp0 : p0 ∈ splitChar '.' ((splitChar '/' server.Address).headI) := by
      rw [hparts]; simp
    have hp1 : p1 ∈ splitChar '.' ((splitChar '/' server.Address).headI) := by
      rw [hparts]; simp
    have hp2 : p2 ∈ splitChar '.' ((splitChar '/' server.Address).headI) := by
      rw [hparts]; simp
    have h0d : '.' ∉ p0 := mem_splitChar_not_mem hp0
    have h1d : '.' ∉ p1 := mem_splitChar_not_mem hp1
    have h2d : '.' ∉ p2 := mem_splitChar_not_mem hp2
    have h0s : '/' ∉ p0 := fun hm => hbs (mem_of_mem_splitChar hp0 hm)
    have h1s : '/' ∉ p1 := fun hm => hbs (mem_of_mem_splitChar hp1 hm)
    have h2s : '/' ∉ p2 := fun hm => hbs (mem_of_mem_splitChar hp2 hm)
    simp only [allocateClientIP]
    rw [if_neg (not_not_intro hlen)]
    cases hf : (List.range 253).find?
        (fun (i : Nat) => ! decide (((i : Int) + 2) ∈ usedIPs server)) with
    | some i =>
      have hi : i < 253 := List.mem_range.1 (List.mem_of_find?_eq_some hf)
      have hN : i + 2 ≤ int64Max := by
        have : (254 : Nat) ≤ int64Max := by unfold int64Max; omega
        omega
      have hb := addrOctet_built p0 p1 p2 (i + 2) hN h0d h0s h1d h1s h2d h2s
      rw [hparts]
      simp only [addrPfx, List.getD_cons_zero, List.getD_cons_succ]
      rw [hb]
      rfl
    | none =>
      have hb := addrOctet_built p0 p1 p2
        (server.Clients.length + 2) hcnt h0d h0s h1d h1s h2d h2s
      rw [hparts]
      simp only [addrPfx, List.getD_cons_zero, List.getD_cons_succ]
      rw [hb]
      rfl
  · simp only [allocateClientIP]
    rw [if_pos hlen]
    decide

/-- The update loop rewrites exactly the first server whose ID matches
the draft. -/
theorem updateServerLoop_found (draft : WireGuardServer) (now : Nat)
    (pre : List WireGuardServer) (old : WireGuardServer) (post : List WireGuardServer)
    (hpre : ∀ s ∈ pre, s.ID ≠ draft.ID) (hold : old.ID = draft.ID) :
    updateServerLoop draft now (pre ++ old :: post) =
      some (pre ++ { draft with
        UpdatedAt := now
        PrivateKey := old.PrivateKey
        PublicKey := old.PublicKey
        Clients := old.Clients
        CreatedAt := old.CreatedAt } :: post) := by
  induction pre with
  | nil =>
    simp only [List.nil_append, updateServerLoop]
    rw [if_pos hold]
  | cons s rest ih =>
    simp only [List.cons_append, updateServerLoop]
    rw [if_neg (hpre s (List.mem_cons_self s rest))]
    simp only [List.append_eq]
    rw [ih (fun s' hs' => hpre s' (List.mem_cons_of_mem s hs'))]

/-- The update loop fails when no server ID matches the draft. -/
theorem updateServerLoop_notFound (draft : WireGuardServer) (now : Nat)
    (servers : List WireGuardServer) (h : ∀ s ∈ servers, s.ID ≠ draft.ID) :
    updateServerLoop draft now servers = none := by
  induction servers with
  | nil => rfl
  | cons s rest ih =>
    simp only [updateServerLoop]
    rw [if_neg (h s (List.mem_cons_self s rest))]
    rw [ih (fun s' hs' => h s' (List.mem_cons_of_mem s hs'))]

/-- The delete loop removes exactly the first server whose ID matches,
recording one stop-interface invocation when that server is enabled. -/
theorem deleteServerLoop_found (id : Str) (pre : List WireGuardServer)
    (srv : WireGuardServer) (post : List WireGuardServer)
    (hpre : ∀ s ∈ pre, s.ID ≠ id) (hsrv : srv.ID = id) :
    deleteServerLoop id (pre ++ srv :: post) =
      some (if srv.Enabled then [srv.Tag] else [], pre ++ post) := by
  induction pre with
  | nil =>
    simp only [List.nil_append, deleteServerLoop]
    rw [if_pos hsrv]
  | cons s rest ih =>
    simp only [List.cons_append, deleteServerLoop]
    rw [if_neg (hpre s (List.mem_cons_self s rest))]
    simp only [List.append_eq]
    rw [ih (fun s' hs' => hpre s' (List.mem_cons_of_mem s hs'))]

/-- The delete loop fails when no server ID matches. -/
theorem deleteServerLoop_notFound (id : Str) (servers : List WireGuardServer)
    (h : ∀ s ∈ servers, s.ID ≠ id) :
    deleteServerLoop id servers = none := by
  induction servers with
  | nil => rfl
  | cons s rest ih =>
    simp only [deleteServerLoop]
    rw [if_neg (h s (List.mem_cons_self s rest))]
    rw [ih (fun s' hs' => h s' (List.mem_cons_of_mem s hs'))]

/-- The add-client loop appends the built client to exactly the first
server whose ID matches, when both generators succeed. -/
theorem addClientLoop_found (serverID : Str) (draft : WireGuardClient) (kp : KeyPair)
    (psk newID : Str) (now : Nat) (pre : List WireGuardServer) (srv : WireGuardServer)
    (post : List WireGuardServer)
    (hpre : ∀ s ∈ pre, s.ID ≠ serverID) (hsrv : srv.ID = serverID) :
    addClientLoop serverID draft (some kp) (some psk) newID now (pre ++ srv :: post) =
      some (.ok (mkAddedClient draft kp psk newID now srv),
        pre ++ { srv with
          Clients := srv.Clients ++ [mkAddedClient draft kp psk newID now srv] } :: post) := by
  induction pre with
  | nil =>
    simp only [List.nil_append, addClientLoop]
    rw [if_pos hsrv]
  | cons s rest ih =>
    simp only [List.cons_append, addClientLoop]
    rw [if_neg (hpre s (List.mem_cons_self s rest))]
    simp only [List.append_eq]
    rw [ih (fun s' hs' => hpre s' (List.mem_cons_of_mem s hs'))]

/-- The add-client loop fails when no server ID matches. -/
theorem addClientLoop_notFound (serverID : Str) (draft : WireGuardClient)
    (kpGen : Option KeyPair) (pskGen : Option Str) (newID : Str) (now : Nat)
    (servers : List WireGuardServer) (h : ∀ s ∈ servers, s.ID ≠ serverID) :
    addClientLoop serverID draft kpGen pskGen newID now servers = none := by
  induction servers with
  | nil => rfl
  | cons s rest ih =>
    simp only [addClientLoop]
    rw [if_neg (h s (List.mem_cons_self s rest))]
    rw [ih (fun s' hs' => h s' (List.mem_cons_of_mem s hs'))]

/-- With both generators succeeding, the add-client loop either finds no
server or succeeds; the generation-error arms are unreachable. -/
theorem addClientLoop_ok_shape (serverID : Str) (draft : WireGuardClient) (kp : KeyPair)
    (psk newID : Str) (now : Nat) (servers : List WireGuardServer) :
    addClientLoop serverID draft (some kp) (some psk) newID now servers = none ∨
    ∃ client servers',
      addClientLoop serverID draft (some kp) (some psk) newID now servers =
        some (.ok client, servers') := by
  induction servers with
  | nil => exact Or.inl rfl
  | cons s rest ih =>
    simp only [addClientLoop]
    by_cases hs : s.ID = serverID
    · rw [if_pos hs]
      exact Or.inr ⟨_, _, rfl⟩
    · rw [if_neg hs]
      rcases ih with h | ⟨c, sv, h⟩
      · rw [h]
        exact Or.inl rfl
      · rw [h]
        exact Or.inr ⟨c, s :: sv, rfl⟩

/-- The inner update-client loop rewrites exactly the first client whose
ID matches: the name only when non-empty, description and enabled flag
always; the returned snapshot is the stored record. -/
theorem updateClientInner_found (clientID name description : Str) (enabled : Bool)
    (cpre : List WireGuardClient) (c : WireGuardClient) (cpost : List WireGuardClient)
    (hcpre : ∀ x ∈ cpre, x.ID ≠ clientID) (hc : c.ID = clientID) :
    updateClientInner clientID name description enabled (cpre ++ c :: cpost) =
      some ({ c with
          Name := (if name = [] then c.Name else name)
          Description := description
          Enabled := enabled },
        cpre ++ { c with
          Name := (if name = [] then c.Name else name)
          Description := description
          Enabled := enabled } :: cpost) := by
  induction cpre with
  | nil =>
    simp only [List.nil_append, updateClientInner]
    rw [if_pos hc]
  | cons x rest ih =>
    simp only [List.cons_append, updateClientInner]
    rw [if_neg (hcpre x (List.mem_cons_self x rest))]
    simp only [List.append_eq]
    rw [ih (fun x' hx' => hcpre x' (List.mem_cons_of_mem x hx'))]

/-- The outer update-client loop rewrites exactly the first matching
server in which the inner loop succeeds. -/
theorem updateClientLoop_found (serverID clientID name description : Str) (enabled : Bool)
    (pre : List WireGuardServer) (srv : WireGuardServer) (post : List WireGuardServer)
    (snap : WireGuardClient) (clients' : List WireGuardClient)
    (hpre : ∀ s ∈ pre, s.ID ≠ serverID) (hsrv : srv.ID = serverID)
    (hinner : updateClientInner clientID name description enabled srv.Clients
      = some (snap, clients')) :
    updateClientLoop serverID clientID name description enabled (pre ++ srv :: post) =
      some (snap, pre ++ { srv with Clients := clients' } :: post) := by
  induction pre with
  | nil =>
    simp only [List.nil_append, updateClientLoop]
    rw [if_pos hsrv, hinner]
  | cons s rest ih =>
    simp only [List.cons_append, updateClientLoop]
    rw [if_neg (hpre s (List.mem_cons_self s rest))]
    simp only [List.append_eq]
    rw [ih (fun s' hs' => hpre s' (List.mem_cons_of_mem s hs'))]

/-- C2: the claim states that a backing store which exists but cannot be
decoded is fatal to service construction, the service serving no
request.  In the source, `loadConfig` does compute and return the
`json.Unmarshal` error, but `NewService` calls `s.loadConfig()` and
discards the result, returning a working service over the zero-value
(empty) document: at the failing input (a `wireguard.json` with
undecodable contents) construction succeeds and `GetServers` serves an
empty list instead of the startup being prevented. -/
theorem C2_parse_failure_ignored :
    loadConfig .malformed = (⟨[]⟩, some .parseFailure) ∧
    NewService .malformed = ⟨[]⟩ ∧
    GetServers (NewService .malformed) = [] :=
  ⟨rfl, rfl, rfl⟩

/-- C3: for an existing server (first match by ID) and any update draft,
`updateServer` stores a server whose PrivateKey, PublicKey, CreatedAt
and client list equal the pre-call values, whose address, tag, port,
MTU, DNS and enabled flag come from the draft, and whose UpdatedAt is
the fresh clock reading. -/
theorem C3_updateServer_preserves (pre : List WireGuardServer) (old : WireGuardServer)
    (post : List WireGuardServer) (draft : WireGuardServer) (now : Nat) (saveOk : Bool)
    (hpre : ∀ s ∈ pre, s.ID ≠ draft.ID) (hold : old.ID = draft.ID) :
    ∃ stored : WireGuardServer,
      (UpdateServer ⟨pre ++ old :: post⟩ draft now saveOk).2.Servers = pre ++ stored :: post ∧
      stored.PrivateKey = old.PrivateKey ∧
      stored.PublicKey = old.PublicKey ∧
      stored.CreatedAt = old.CreatedAt ∧
      stored.Clients = old.Clients ∧
      stored.Address = draft.Address ∧
      stored.Tag = draft.Tag ∧
      stored.ListenPort = draft.ListenPort ∧
      stored.MTU = draft.MTU ∧
      stored.DNS = draft.DNS ∧
      stored.Enabled = draft.Enabled ∧
      stored.UpdatedAt = now := by
  refine ⟨{ draft with
      UpdatedAt := now
      PrivateKey := old.PrivateKey
      PublicKey := old.PublicKey
      Clients := old.Clients
      CreatedAt := old.CreatedAt },
    ?_, rfl, rfl, rfl, rfl, rfl, rfl, rfl, rfl, rfl, rfl, rfl⟩
  simp only [UpdateServer]
  rw [updateServerLoop_found draft now pre old post hpre hold]

/-- C3 witness: a concrete update of the stored server `srvA` by the
draft `draftB`, which tries to overwrite every immutable field. -/
theorem C3_witness :
    (∀ s ∈ ([] : List WireGuardServer), s.ID ≠ draftB.ID) ∧ srvA.ID = draftB.ID ∧
    ∃ stored : WireGuardServer,
      (UpdateServer ⟨[] ++ srvA :: []⟩ draftB 9 true).2.Servers = [] ++ stored :: [] ∧
      stored.PrivateKey = srvA.PrivateKey ∧
      stored.PublicKey = srvA.PublicKey ∧
      stored.CreatedAt = srvA.CreatedAt ∧
      stored.Clients = srvA.Clients ∧
      stored.Address = draftB.Address ∧
      stored.Tag = draftB.Tag ∧
      stored.ListenPort = draftB.ListenPort ∧
      stored.MTU = draftB.MTU ∧
      stored.DNS = draftB.DNS ∧
      stored.Enabled = draftB.Enabled ∧
      stored.UpdatedAt = 9 :=
  ⟨by simp, by decide,
    C3_updateServer_preserves [] srvA [] draftB 9 true (by simp) (by decide)⟩

/-- C10: `updateServer` copies the mutable fields verbatim from the
draft without re-applying creation defaults — a draft MTU of 0 is stored
as 0 and an empty draft DNS as empty — while `createServer` fills 1420
and "1.1.1.1,8.8.8.8" for those unset values. -/
theorem C10_update_no_defaults :
    (∀ (pre : List WireGuardServer) (old : WireGuardServer) (post : List WireGuardServer)
        (draft : WireGuardServer) (now : Nat) (saveOk : Bool),
      (∀ s ∈ pre, s.ID ≠ draft.ID) → old.ID = draft.ID →
      ∃ stored : WireGuardServer,
        (UpdateServer ⟨pre ++ old :: post⟩ draft now saveOk).2.Servers = pre ++ stored :: post ∧
        stored.MTU = draft.MTU ∧ stored.DNS = draft.DNS) ∧
    (∀ (cfg : WireGuardConfig) (draft : WireGuardServer) (kp : KeyPair) (newID : Str)
        (t1 t2 : Nat) (saveOk : Bool),
      draft.MTU = 0 → draft.DNS = [] →
      (CreateServer cfg draft (some kp) newID t1 t2 saveOk).2.2.MTU = 1420 ∧
      (CreateServer cfg draft (some kp) newID t1 t2 saveOk).2.2.DNS = gstr "1.1.1.1,8.8.8.8") := by
  constructor
  · intro pre old post draft now saveOk hpre hold
    refine ⟨{ draft with
        UpdatedAt := now
        PrivateKey := old.PrivateKey
        PublicKey := old.PublicKey
        Clients := old.Clients
        CreatedAt := old.CreatedAt },
      ?_, rfl, rfl⟩
    simp only [UpdateServer]
    rw [updateServerLoop_found draft now pre old post hpre hold]
  · intro cfg draft kp newID t1 t2 saveOk hmtu hdns
    constructor
    · simp [CreateServer, hmtu]
    · simp [CreateServer, hdns]

/-- C10 witness: `draftB` carries MTU 0 and empty DNS; updating stores
them verbatim, while creating from `draftS` (also MTU 0, empty DNS)
fills the defaults. -/
theorem C10_witness :
    (∀ s ∈ ([] : List WireGuardServer), s.ID ≠ draftB.ID) ∧ srvA.ID = draftB.ID ∧
    draftS.MTU = 0 ∧ draftS.DNS = [] ∧
    (∃ stored : WireGuardServer,
      (UpdateServer ⟨[] ++ srvA :: []⟩ draftB 9 true).2.Servers = [] ++ stored :: [] ∧
      stored.MTU = draftB.MTU ∧ stored.DNS = draftB.DNS) ∧
    (CreateServer ⟨[]⟩ draftS (some kp0) (gstr "id-1") 0 1 true).2.2.MTU = 1420 ∧
    (CreateServer ⟨[]⟩ draftS (some kp0) (gstr "id-1") 0 1 true).2.2.DNS = gstr "1.1.1.1,8.8.8.8" :=
  ⟨by simp, by decide, by decide, by decide,
    C10_update_no_defaults.1 [] srvA [] draftB 9 true (by simp) (by decide),
    C10_update_no_defaults.2 ⟨[]⟩ draftS kp0 (gstr "id-1") 0 1 true (by decide) (by decide)⟩

/-- C8 counterexample: the source stamps CreatedAt and UpdatedAt with
two separate `time.Now()` calls, so they are two successive clock
readings that need not be equal; with readings 0 and 1 the created
server has different created/updated timestamps, refuting the claim's
"equal created/updated timestamps stamped at creation". -/
theorem C8_counterexample :
    (CreateServer ⟨[]⟩ draftS (some kp0) (gstr "id-1") 0 1 true).2.2.CreatedAt ≠
    (CreateServer ⟨[]⟩ draftS (some kp0) (gstr "id-1") 0 1 true).2.2.UpdatedAt := by
  decide

/-- C8 amended: `createServer` returns a server carrying the generated
key pair, the freshly generated ID, CreatedAt and UpdatedAt stamped from
the two successive clock readings taken at creation (equal only when
the clock readings are), an empty client list, MTU defaulted to 1420 and
DNS to "1.1.1.1,8.8.8.8" when the draft leaves them unset and kept
otherwise; the server is appended to the document. -/
theorem C8_createServer_amended (cfg : WireGuardConfig) (draft : WireGuardServer)
    (kp : KeyPair) (newID : Str) (t1 t2 : Nat) (saveOk : Bool) :
    (CreateServer cfg draft (some kp) newID t1 t2 saveOk).2.1.Servers =
      cfg.Servers ++ [(CreateServer cfg draft (some kp) newID t1 t2 saveOk).2.2] ∧
    (CreateServer cfg draft (some kp) newID t1 t2 saveOk).2.2.ID = newID ∧
    (CreateServer cfg draft (some kp) newID t1 t2 saveOk).2.2.PrivateKey = kp.PrivateKey ∧
    (CreateServer cfg draft (some kp) newID t1 t2 saveOk).2.2.PublicKey = kp.PublicKey ∧
    (CreateServer cfg draft (some kp) newID t1 t2 saveOk).2.2.CreatedAt = t1 ∧
    (CreateServer cfg draft (some kp) newID t1 t2 saveOk).2.2.UpdatedAt = t2 ∧
    (CreateServer cfg draft (some kp) newID t1 t2 saveOk).2.2.Clients = [] ∧
    (CreateServer cfg draft (some kp) newID t1 t2 saveOk).2.2.MTU
      = (if draft.MTU = 0 then 1420 else draft.MTU) ∧
    (CreateServer cfg draft (some kp) newID t1 t2 saveOk).2.2.DNS
      = (if draft.DNS = [] then gstr "1.1.1.1,8.8.8.8" else draft.DNS) :=
  ⟨rfl, rfl, rfl, rfl, rfl, rfl, rfl, rfl, rfl⟩

/-- C6: deleting an existing enabled server (the document's IDs being
unique) invokes the stop-interface collaborator exactly once, with that
server's tag — in the Go loop body the stop happens before the removal
and the save — and after a successful return the server no longer
appears in `GetServers`; deleting an absent ID returns the not-found
error, performs no stop and leaves the document unchanged. -/
theorem C6_deleteServer (pre : List WireGuardServer) (srv : WireGuardServer)
    (post : List WireGuardServer) (id : Str) (saveOk : Bool) (cfg : WireGuardConfig) :
    ((∀ s ∈ pre, s.ID ≠ id) → srv.ID = id → srv.Enabled = true →
      (∀ s ∈ post, s.ID ≠ id) → saveOk = true →
      (DeleteServer ⟨pre ++ srv :: post⟩ id saveOk).2.2 = [srv.Tag] ∧
      (DeleteServer ⟨pre ++ srv :: post⟩ id saveOk).1 = none ∧
      GetServers (DeleteServer ⟨pre ++ srv :: post⟩ id saveOk).2.1 = pre ++ post ∧
      (∀ s ∈ GetServers (DeleteServer ⟨pre ++ srv :: post⟩ id saveOk).2.1, s.ID ≠ id)) ∧
    ((∀ s ∈ cfg.Servers, s.ID ≠ id) →
      (DeleteServer cfg id saveOk).1 = some .serverNotFound ∧
      (DeleteServer cfg id saveOk).2.2 = [] ∧
      (DeleteServer cfg id saveOk).2.1 = cfg) := by
  constructor
  · intro hpre hsrv hen hpost hsave
    have hd := deleteServerLoop_found id pre srv post hpre hsrv
    rw [hen] at hd
    simp only [if_true] at hd
    subst hsave
    have hmain : DeleteServer ⟨pre ++ srv :: post⟩ id true
        = (saveResult true, ⟨pre ++ post⟩, [srv.Tag]) := by
      simp only [DeleteServer]
      rw [hd]
    refine ⟨?_, ?_, ?_, ?_⟩
    · rw [hmain]
    · rw [hmain]; rfl
    · rw [hmain]; rfl
    · rw [hmain]
      intro s hs
      rcases List.mem_append.1 hs with h | h
      · exact hpre s h
      · exact hpost s h
  · intro habs
    have hd := deleteServerLoop_notFound id cfg.Servers habs
    have hmain : DeleteServer cfg id saveOk = (some .serverNotFound, cfg, []) := by
      simp only [DeleteServer]
      rw [hd]
    exact ⟨by rw [hmain], by rw [hmain], by rw [hmain]⟩

/-- C6 witness: deleting the enabled server `srvA` from `cfgA` stops
interface "wg0" exactly once and removes it; deleting the unknown ID
"nope" reports not-found with no stop. -/
theorem C6_witness :
    srvA.ID = gstr "sid" ∧ srvA.Enabled = true ∧
    ((DeleteServer ⟨[] ++ srvA :: []⟩ (gstr "sid") true).2.2 = [srvA.Tag] ∧
      (DeleteServer ⟨[] ++ srvA :: []⟩ (gstr "sid") true).1 = none ∧
      GetServers (DeleteServer ⟨[] ++ srvA :: []⟩ (gstr "sid") true).2.1 = [] ++ [] ∧
      (∀ s ∈ GetServers (DeleteServer ⟨[] ++ srvA :: []⟩ (gstr "sid") true).2.1,
        s.ID ≠ gstr "sid")) ∧
    ((DeleteServer cfgA (gstr "nope") true).1 = some .serverNotFound ∧
      (DeleteServer cfgA (gstr "nope") true).2.2 = [] ∧
      (DeleteServer cfgA (gstr "nope") true).2.1 = cfgA) :=
  ⟨by decide, by decide,
    (C6_deleteServer [] srvA [] (gstr "sid") true cfgA).1
      (by simp) (by decide) (by decide) (by simp) rfl,
    (C6_deleteServer [] srvA [] (gstr "nope") true cfgA).2 (by decide)⟩

/-- C7: for an existing client (first match by server then client ID),
`updateClient` keeps the stored name when the supplied name is empty and
replaces it when non-empty, always overwrites description and enabled
flag (even with empty or false values), touches no other field, and on
a successful save returns a snapshot equal to the stored client. -/
theorem C7_updateClient (pre : List WireGuardServer) (srv : WireGuardServer)
    (post : List WireGuardServer) (cpre : List WireGuardClient) (c : WireGuardClient)
    (cpost : List WireGuardClient) (serverID clientID name description : Str) (enabled : Bool)
    (hpre : ∀ s ∈ pre, s.ID ≠ serverID) (hsrv : srv.ID = serverID)
    (hcl : srv.Clients = cpre ++ c :: cpost)
    (hcpre : ∀ x ∈ cpre, x.ID ≠ clientID) (hc : c.ID = clientID) :
    ∃ snap : WireGuardClient,
      (UpdateClient ⟨pre ++ srv :: post⟩ serverID clientID name description enabled true).1
        = .ok snap ∧
      (UpdateClient ⟨pre ++ srv :: post⟩ serverID clientID name description enabled true).2.Servers
        = pre ++ { srv with Clients := cpre ++ snap :: cpost } :: post ∧
      snap.Name = (if name = [] then c.Name else name) ∧
      snap.Description = description ∧
      snap.Enabled = enabled ∧
      snap.ID = c.ID ∧
      snap.PrivateKey = c.PrivateKey ∧
      snap.PublicKey = c.PublicKey ∧
      snap.PresharedKey = c.PresharedKey ∧
      snap.AllowedIPs = c.AllowedIPs ∧
      snap.DNS = c.DNS ∧
      snap.CreatedAt = c.CreatedAt := by
  have hin := updateClientInner_found clientID name description enabled cpre c cpost hcpre hc
  have hl := updateClientLoop_found serverID clientID name description enabled pre srv post
    _ _ hpre hsrv (by rw [hcl]; exact hin)
  refine ⟨{ c with
      Name := (if name = [] then c.Name else name)
      Description := description
      Enabled := enabled },
    ?_, ?_, rfl, rfl, rfl, rfl, rfl, rfl, rfl, rfl, rfl, rfl⟩
  · simp only [UpdateClient]
    rw [hl]
    rfl
  · simp only [UpdateClient]
    rw [hl]
    rfl

/-- C7 witness: the spec's example — existing name "laptop", update with
empty name, description "work", enabled false — plus a non-empty rename
of the same client. -/
theorem C7_witness :
    srvA.ID = gstr "sid" ∧
    srvA.Clients = [] ++ mkC (gstr "c1") (gstr "10.0.0.2/32") :: [mkC (gstr "c2") (gstr "192.168.7.3/32"), mkC (gstr "c3") (gstr "10.0.0.bad/32")] ∧
    (mkC (gstr "c1") (gstr "10.0.0.2/32")).Name = gstr "laptop" ∧
    (∃ snap : WireGuardClient,
      (UpdateClient ⟨[] ++ srvA :: []⟩ (gstr "sid") (gstr "c1") [] (gstr "work") false true).1
        = .ok snap ∧
      (UpdateClient ⟨[] ++ srvA :: []⟩ (gstr "sid") (gstr "c1") [] (gstr "work") false true).2.Servers
        = [] ++ { srvA with Clients := [] ++ snap :: [mkC (gstr "c2") (gstr "192.168.7.3/32"), mkC (gstr "c3") (gstr "10.0.0.bad/32")] } :: [] ∧
      snap.Name = (if ([] : Str) = [] then (mkC (gstr "c1") (gstr "10.0.0.2/32")).Name else []) ∧
      snap.Description = gstr "work" ∧
      snap.Enabled = false ∧
      snap.ID = (mkC (gstr "c1") (gstr "10.0.0.2/32")).ID ∧
      snap.PrivateKey = (mkC (gstr "c1") (gstr "10.0.0.2/32")).PrivateKey ∧
      snap.PublicKey = (mkC (gstr "c1") (gstr "10.0.0.2/32")).PublicKey ∧
      snap.PresharedKey = (mkC (gstr "c1") (gstr "10.0.0.2/32")).PresharedKey ∧
      snap.AllowedIPs = (mkC (gstr "c1") (gstr "10.0.0.2/32")).AllowedIPs ∧
      snap.DNS = (mkC (gstr "c1") (gstr "10.0.0.2/32")).DNS ∧
      snap.CreatedAt = (mkC (gstr "c1") (gstr "10.0.0.2/32")).CreatedAt) ∧
    (∃ snap : WireGuardClient,
      (UpdateClient ⟨[] ++ srvA :: []⟩ (gstr "sid") (gstr "c1") (gstr "phone") (gstr "d2") true true).1
        = .ok snap ∧
      (UpdateClient ⟨[] ++ srvA :: []⟩ (gstr "sid") (gstr "c1") (gstr "phone") (gstr "d2") true true).2.Servers
        = [] ++ { srvA with Clients := [] ++ snap :: [mkC (gstr "c2") (gstr "192.168.7.3/32"), mkC (gstr "c3") (gstr "10.0.0.bad/32")] } :: [] ∧
      snap.Name = (if gstr "phone" = [] then (mkC (gstr "c1") (gstr "10.0.0.2/32")).Name else gstr "phone") ∧
      snap.Description = gstr "d2" ∧
      snap.Enabled = true ∧
      snap.ID = (mkC (gstr "c1") (gstr "10.0.0.2/32")).ID ∧
      snap.PrivateKey = (mkC (gstr "c1") (gstr "10.0.0.2/32")).PrivateKey ∧
      snap.PublicKey = (mkC (gstr "c1") (gstr "10.0.0.2/32")).PublicKey ∧
      snap.PresharedKey = (mkC (gstr "c1") (gstr "10.0.0.2/32")).PresharedKey ∧
      snap.AllowedIPs = (mkC (gstr "c1") (gstr "10.0.0.2/32")).AllowedIPs ∧
      snap.DNS = (mkC (gstr "c1") (gstr "10.0.0.2/32")).DNS ∧
      snap.CreatedAt = (mkC (gstr "c1") (gstr "10.0.0.2/32")).CreatedAt) :=
  ⟨by decide, by decide, by decide,
    C7_updateClient [] srvA [] [] (mkC (gstr "c1") (gstr "10.0.0.2/32"))
      [mkC (gstr "c2") (gstr "192.168.7.3/32"), mkC (gstr "c3") (gstr "10.0.0.bad/32")]
      (gstr "sid") (gstr "c1") [] (gstr "work") false
      (by simp) (by decide) (by decide) (by simp) (by decide),
    C7_updateClient [] srvA [] [] (mkC (gstr "c1") (gstr "10.0.0.2/32"))
      [mkC (gstr "c2") (gstr "192.168.7.3/32"), mkC (gstr "c3") (gstr "10.0.0.bad/32")]
      (gstr "sid") (gstr "c1") (gstr "phone") (gstr "d2") true
      (by simp) (by decide) (by decide) (by simp) (by decide)⟩

/-- C4: `addClient` with a non-empty allowed-IP stores the draft's value
untouched; with an empty allowed-IP, against a server whose address
splits into four dot-separated parts with a numeric host octet and with
some octet in [2,254] unused, it stores an address `prefix.N/32` with
N in [2,254], N different from the server's own host octet and from the
host octet of every sibling client whose address yields one. -/
theorem C4_addClient_ip (pre : List WireGuardServer) (srv : WireGuardServer)
    (post : List WireGuardServer) (serverID : Str) (draft : WireGuardClient)
    (kp : KeyPair) (psk newID : Str) (now : Nat) (saveOk : Bool)
    (hpre : ∀ s ∈ pre, s.ID ≠ serverID) (hsrv : srv.ID = serverID) :
    (draft.AllowedIPs ≠ [] →
      ∃ stored : WireGuardClient,
        (AddClient ⟨pre ++ srv :: post⟩ serverID draft (some kp) (some psk) newID now saveOk).2.1.Servers
          = pre ++ { srv with Clients := srv.Clients ++ [stored] } :: post ∧
        stored.AllowedIPs = draft.AllowedIPs) ∧
    (draft.AllowedIPs = [] →
      ∀ sOct : Int, addrOctet srv.Address = some sOct →
      (splitChar '.' ((splitChar '/' srv.Address).headI)).length = 4 →
      (∃ i : Nat, i < 253 ∧ ((i : Int) + 2) ∉ usedIPs srv) →
      ∃ (stored : WireGuardClient) (N : Nat),
        (AddClient ⟨pre ++ srv :: post⟩ serverID draft (some kp) (some psk) newID now saveOk).2.1.Servers
          = pre ++ { srv with Clients := srv.Clients ++ [stored] } :: post ∧
        stored.AllowedIPs =
          addrPfx (splitChar '.' ((splitChar '/' srv.Address).headI))
            ++ gstr "." ++ natToStr N ++ gstr "/32" ∧
        2 ≤ N ∧ N ≤ 254 ∧
        (N : Int) ≠ sOct ∧
        (∀ c ∈ srv.Clients, ∀ m : Int, addrOctet c.AllowedIPs = some m → (N : Int) ≠ m)) := by
  have hloop := addClientLoop_found serverID draft kp psk newID now pre srv post hpre hsrv
  have hcfg : (AddClient ⟨pre ++ srv :: post⟩ serverID draft (some kp) (some psk) newID now saveOk).2.1.Servers
      = pre ++ { srv with
          Clients := srv.Clients ++ [mkAddedClient draft kp psk newID now srv] } :: post := by
    simp only [AddClient]
    rw [hloop]
  constructor
  · intro hne
    refine ⟨mkAddedClient draft kp psk newID now srv, hcfg, ?_⟩
    simp only [mkAddedClient]
    rw [if_neg hne]
  · intro hemp sOct hoct hlen hfree
    obtain ⟨N, h2, h254, hnotin, halloc⟩ := allocateClientIP_found srv hlen hfree
    refine ⟨mkAddedClient draft kp psk newID now srv, N, hcfg, ?_, h2, h254, ?_, ?_⟩
    · simp only [mkAddedClient]
      rw [if_pos hemp, halloc]
    · intro hNs
      exact hnotin ((mem_usedIPs srv (N : Int)).2 (Or.inl (hNs ▸ hoct)))
    · intro c hc m hm hNm
      exact hnotin ((mem_usedIPs srv (N : Int)).2 (Or.inr ⟨c, hc, hNm ▸ hm⟩))

/-- C4 witness: against `srvA` (host octet 1; siblings use octets 2 and
3, one sibling unparseable), an explicit draft address is stored
untouched and an empty one gets a fresh `10.0.0.N/32`. -/
theorem C4_witness :
    srvA.ID = gstr "sid" ∧
    (mkC (gstr "d2") (gstr "172.16.0.5/32")).AllowedIPs ≠ [] ∧
    (mkC (gstr "d1") []).AllowedIPs = [] ∧
    addrOctet srvA.Address = some 1 ∧
    (splitChar '.' ((splitChar '/' srvA.Address).headI)).length = 4 ∧
    (2 < 253 ∧ (((2 : Nat) : Int) + 2) ∉ usedIPs srvA) ∧
    (∃ stored : WireGuardClient,
      (AddClient ⟨[] ++ srvA :: []⟩ (gstr "sid") (mkC (gstr "d2") (gstr "172.16.0.5/32"))
          (some kp0) (some (gstr "psk1")) (gstr "nid") 7 true).2.1.Servers
        = [] ++ { srvA with Clients := srvA.Clients ++ [stored] } :: [] ∧
      stored.AllowedIPs = (mkC (gstr "d2") (gstr "172.16.0.5/32")).AllowedIPs) ∧
    (∃ (stored : WireGuardClient) (N : Nat),
      (AddClient ⟨[] ++ srvA :: []⟩ (gstr "sid") (mkC (gstr "d1") [])
          (some kp0) (some (gstr "psk1")) (gstr "nid") 7 true).2.1.Servers
        = [] ++ { srvA with Clients := srvA.Clients ++ [stored] } :: [] ∧
      stored.AllowedIPs =
        addrPfx (splitChar '.' ((splitChar '/' srvA.Address).headI))
          ++ gstr "." ++ natToStr N ++ gstr "/32" ∧
      2 ≤ N ∧ N ≤ 254 ∧
      (N : Int) ≠ 1 ∧
      (∀ c ∈ srvA.Clients, ∀ m : Int, addrOctet c.AllowedIPs = some m → (N : Int) ≠ m)) :=
  ⟨by decide, by decide, by decide, by decide, by decide, ⟨by omega, by decide⟩,
    (C4_addClient_ip [] srvA [] (gstr "sid") (mkC (gstr "d2") (gstr "172.16.0.5/32"))
      kp0 (gstr "psk1") (gstr "nid") 7 true (by simp) (by decide)).1 (by decide),
    (C4_addClient_ip [] srvA [] (gstr "sid") (mkC (gstr "d1") [])
      kp0 (gstr "psk1") (gstr "nid") 7 true (by simp) (by decide)).2 (by decide) 1
      (by decide) (by decide) ⟨2, by omega, by decide⟩⟩

/-- C5: when every host octet 2 through 254 is already in use for a
server (whose address splits into four parts), automatic allocation does
not fail: it returns the fallback `A.B.C.<clientCount+2>/32`, where
clientCount is the number of existing clients and `A.B.C` is the
server's prefix. -/
theorem C5_exhaustion_fallback (server : WireGuardServer)
    (hlen : (splitChar '.' ((splitChar '/' server.Address).headI)).length = 4)
    (hall : ∀ i : Nat, i < 253 → ((i : Int) + 2) ∈ usedIPs server) :
    allocateClientIP server =
      addrPfx (splitChar '.' ((splitChar '/' server.Address).headI))
        ++ gstr "." ++ natToStr (server.Clients.length + 2) ++ gstr "/32" :=
  allocateClientIP_exhausted server hlen hall

set_option maxRecDepth 10000 in
/-- C5 witness: `exhSrv` holds 253 clients covering octets 2..254 (its
own octet is 1); allocation yields the fallback `10.0.0.255/32`
(clientCount 253 plus 2). -/
theorem C5_witness :
    (splitChar '.' ((splitChar '/' exhSrv.Address).headI)).length = 4 ∧
    (∀ i : Nat, i < 253 → ((i : Int) + 2) ∈ usedIPs exhSrv) ∧
    allocateClientIP exhSrv =
      addrPfx (splitChar '.' ((splitChar '/' exhSrv.Address).headI))
        ++ gstr "." ++ natToStr (exhSrv.Clients.length + 2) ++ gstr "/32" ∧
    allocateClientIP exhSrv = gstr "10.0.0.255/32" := by
  have hused : usedIPs exhSrv = usedLit := by decide
  have hall : ∀ i : Nat, i < 253 → ((i : Int) + 2) ∈ usedIPs exhSrv := by
    rw [hused]
    decide
  have hcnt : exhSrv.Clients.length + 2 = 255 := by decide
  have h255 : natToStr (exhSrv.Clients.length + 2) = gstr "255" := by
    rw [hcnt, natToStr, natToStr, natToStr]
    decide
  refine ⟨by decide, hall, C5_exhaustion_fallback exhSrv (by decide) hall, ?_⟩
  rw [C5_exhaustion_fallback exhSrv (by decide) hall, h255]
  decide

/-- C1 counterexample: with the durable write failing, `createServer`
returns the save error — but the in-memory document is not equal to the
pre-call document: it already contains the new server, because every
mutating operation applies its in-memory mutation before attempting the
save (the spec itself warns that callers must not assume rollback). -/
theorem C1_counterexample :
    (CreateServer ⟨[]⟩ draftS (some kp0) (gstr "id-1") 0 0 false).1 = some GoErr.saveFailure ∧
    (CreateServer ⟨[]⟩ draftS (some kp0) (gstr "id-1") 0 0 false).2.1 ≠ (⟨[]⟩ : WireGuardConfig) := by
  exact ⟨rfl, by decide⟩

/-- C1 amended: for every mutating operation, when the durable write
fails the operation surfaces the save error to the caller, and the
in-memory document is exactly the one a successful save would have left
(the mutation is kept in memory, not rolled back): memory evolves
identically whether or not the save succeeds. -/
theorem C1_save_failure_surfaced :
    (∀ (cfg : WireGuardConfig) (draft : WireGuardServer) (kp : KeyPair) (newID : Str)
        (t1 t2 : Nat),
      (CreateServer cfg draft (some kp) newID t1 t2 false).2.1
        = (CreateServer cfg draft (some kp) newID t1 t2 true).2.1 ∧
      (CreateServer cfg draft (some kp) newID t1 t2 false).1 = some .saveFailure) ∧
    (∀ (cfg : WireGuardConfig) (draft : WireGuardServer) (now : Nat),
      (UpdateServer cfg draft now false).2 = (UpdateServer cfg draft now true).2 ∧
      ((updateServerLoop draft now cfg.Servers).isSome →
        (UpdateServer cfg draft now false).1 = some .saveFailure)) ∧
    (∀ (cfg : WireGuardConfig) (id : Str),
      (DeleteServer cfg id false).2.1 = (DeleteServer cfg id true).2.1 ∧
      ((deleteServerLoop id cfg.Servers).isSome →
        (DeleteServer cfg id false).1 = some .saveFailure)) ∧
    (∀ (cfg : WireGuardConfig) (serverID : Str) (draft : WireGuardClient) (kp : KeyPair)
        (psk newID : Str) (now : Nat),
      (AddClient cfg serverID draft (some kp) (some psk) newID now false).2.1
        = (AddClient cfg serverID draft (some kp) (some psk) newID now true).2.1 ∧
      ((addClientLoop serverID draft (some kp) (some psk) newID now cfg.Servers).isSome →
        (AddClient cfg serverID draft (some kp) (some psk) newID now false).1
          = some .saveFailure)) ∧
    (∀ (cfg : WireGuardConfig) (serverID clientID : Str),
      (DeleteClient cfg serverID clientID false).2 = (DeleteClient cfg serverID clientID true).2 ∧
      ((deleteClientLoop serverID clientID cfg.Servers).isSome →
        (DeleteClient cfg serverID clientID false).1 = some .saveFailure)) ∧
    (∀ (cfg : WireGuardConfig) (serverID clientID name description : Str) (enabled : Bool),
      (UpdateClient cfg serverID clientID name description enabled false).2
        = (UpdateClient cfg serverID clientID name description enabled true).2 ∧
      ((updateClientLoop serverID clientID name description enabled cfg.Servers).isSome →
        (UpdateClient cfg serverID clientID name description enabled false).1
          = .error .saveFailure)) := by
  refine ⟨?_, ?_, ?_, ?_, ?_, ?_⟩
  · intro cfg draft kp newID t1 t2
    exact ⟨rfl, rfl⟩
  · intro cfg draft now
    constructor
    · simp only [UpdateServer]
      cases updateServerLoop draft now cfg.Servers <;> rfl
    · intro hs
      obtain ⟨sv, hsv⟩ := Option.isSome_iff_exists.1 hs
      simp only [UpdateServer]
      rw [hsv]
      rfl
  · intro cfg id
    constructor
    · simp only [DeleteServer]
      cases h : deleteServerLoop id cfg.Servers with
      | none => rfl
      | some p =>
        obtain ⟨stops, sv⟩ := p
        rfl
    · intro hs
      obtain ⟨p, hp⟩ := Option.isSome_iff_exists.1 hs
      obtain ⟨stops, sv⟩ := p
      simp only [DeleteServer]
      rw [hp]
      rfl
  · intro cfg serverID draft kp psk newID now
    constructor
    · simp only [AddClient]
      cases h : addClientLoop serverID draft (some kp) (some psk) newID now cfg.Servers with
      | none => rfl
      | some p =>
        obtain ⟨r, sv⟩ := p
        cases r <;> rfl
    · intro hs
      rcases addClientLoop_ok_shape serverID draft kp psk newID now cfg.Servers with h | ⟨c, sv, h⟩
      · rw [h] at hs
        cases hs
      · simp only [AddClient]
        rw [h]
        rfl
  · intro cfg serverID clientID
    constructor
    · simp only [DeleteClient]
      cases deleteClientLoop serverID clientID cfg.Servers <;> rfl
    · intro hs
      obtain ⟨sv, hsv⟩ := Option.isSome_iff_exists.1 hs
      simp only [DeleteClient]
      rw [hsv]
      rfl
  · intro cfg serverID clientID name description enabled
    constructor
    · simp only [UpdateClient]
      cases h : updateClientLoop serverID clientID name description enabled cfg.Servers with
      | none => rfl
      | some p =>
        obtain ⟨snap, sv⟩ := p
        rfl
    · intro hs
      obtain ⟨p, hp⟩ := Option.isSome_iff_exists.1 hs
      obtain ⟨snap, sv⟩ := p
      simp only [UpdateClient]
      rw [hp]
      rfl

/-- C1 witness: each mutating operation run against the concrete
document `cfgA` with a failing durable write returns the save error
while leaving memory exactly as a successful save would have. -/
theorem C1_witness :
    ((CreateServer cfgA draftS (some kp0) (gstr "nid") 3 4 false).2.1
        = (CreateServer cfgA draftS (some kp0) (gstr "nid") 3 4 true).2.1 ∧
      (CreateServer cfgA draftS (some kp0) (gstr "nid") 3 4 false).1 = some .saveFailure) ∧
    ((updateServerLoop draftB 9 cfgA.Servers).isSome ∧
      (UpdateServer cfgA draftB 9 false).2 = (UpdateServer cfgA draftB 9 true).2 ∧
      (UpdateServer cfgA draftB 9 false).1 = some .saveFailure) ∧
    ((deleteServerLoop (gstr "sid") cfgA.Servers).isSome ∧
      (DeleteServer cfgA (gstr "sid") false).2.1 = (DeleteServer cfgA (gstr "sid") true).2.1 ∧
      (DeleteServer cfgA (gstr "sid") false).1 = some .saveFailure) ∧
    ((addClientLoop (gstr "sid") (mkC (gstr "d2") (gstr "172.16.0.5/32")) (some kp0)
        (some (gstr "psk1")) (gstr "nid") 7 cfgA.Servers).isSome ∧
      (AddClient cfgA (gstr "sid") (mkC (gstr "d2") (gstr "172.16.0.5/32")) (some kp0)
          (some (gstr "psk1")) (gstr "nid") 7 false).2.1
        = (AddClient cfgA (gstr "sid") (mkC (gstr "d2") (gstr "172.16.0.5/32")) (some kp0)
            (some (gstr "psk1")) (gstr "nid") 7 true).2.1 ∧
      (AddClient cfgA (gstr "sid") (mkC (gstr "d2") (gstr "172.16.0.5/32")) (some kp0)
          (some (gstr "psk1")) (gstr "nid") 7 false).1 = some .saveFailure) ∧
    ((deleteClientLoop (gstr "sid") (gstr "c1") cfgA.Servers).isSome ∧
      (DeleteClient cfgA (gstr "sid") (gstr "c1") false).2
        = (DeleteClient cfgA (gstr "sid") (gstr "c1") true).2 ∧
      (DeleteClient cfgA (gstr "sid") (gstr "c1") false).1 = some .saveFailure) ∧
    ((updateClientLoop (gstr "sid") (gstr "c1") [] (gstr "work") false cfgA.Servers).isSome ∧
      (UpdateClient cfgA (gstr "sid") (gstr "c1") [] (gstr "work") false false).2
        = (UpdateClient cfgA (gstr "sid") (gstr "c1") [] (gstr "work") false true).2 ∧
      (UpdateClient cfgA (gstr "sid") (gstr "c1") [] (gstr "work") false false).1
        = .error .saveFailure) :=
  ⟨C1_save_failure_surfaced.1 cfgA draftS kp0 (gstr "nid") 3 4,
    ⟨by decide, (C1_save_failure_surfaced.2.1 cfgA draftB 9).1,
      (C1_save_failure_surfaced.2.1 cfgA draftB 9).2 (by decide)⟩,
    ⟨by decide, (C1_save_failure_surfaced.2.2.1 cfgA (gstr "sid")).1,
      (C1_save_failure_surfaced.2.2.1 cfgA (gstr "sid")).2 (by decide)⟩,
    ⟨by decide,
      (C1_save_failure_surfaced.2.2.2.1 cfgA (gstr "sid") (mkC (gstr "d2") (gstr "172.16.0.5/32"))
        kp0 (gstr "psk1") (gstr "nid") 7).1,
      (C1_save_failure_surfaced.2.2.2.1 cfgA (gstr "sid") (mkC (gstr "d2") (gstr "172.16.0.5/32"))
        kp0 (gstr "psk1") (gstr "nid") 7).2 (by decide)⟩,
    ⟨by decide, (C1_save_failure_surfaced.2.2.2.2.1 cfgA (gstr "sid") (gstr "c1")).1,
      (C1_save_failure_surfaced.2.2.2.2.1 cfgA (gstr "sid") (gstr "c1")).2 (by decide)⟩,
    ⟨by decide,
      (C1_save_failure_surfaced.2.2.2.2.2 cfgA (gstr "sid") (gstr "c1") [] (gstr "work") false).1,
      (C1_save_failure_surfaced.2.2.2.2.2 cfgA (gstr "sid") (gstr "c1") [] (gstr "work") false).2
        (by decide)⟩⟩

/-- C9 counterexample: the final clause of the claim — that the
allocated address may textually duplicate an unparseable sibling's
address — is impossible: every address the allocator emits parses back
into four dot-separated parts with an integer fourth octet, while an
"unparseable" sibling's address by definition does not, so the two
strings can never be equal.  (The client-count bound keeps the printed
fallback octet inside the `int64` range; it holds for every physically
possible document.) -/
theorem C9_counterexample :
    ¬ ∃ (server : WireGuardServer) (c : WireGuardClient),
        server.Clients.length + 2 ≤ int64Max ∧ c ∈ server.Clients ∧
        addrOctet c.AllowedIPs = none ∧ allocateClientIP server = c.AllowedIPs := by
  rintro ⟨server, c, hcnt, hmem, hnone, heq⟩
  have hp := allocateClientIP_parses server hcnt
  rw [heq, hnone] at hp
  simp at hp

/-- C9 amended: the used-octet set is keyed solely on the fourth
dot-separated component of each address — a sibling in a foreign prefix
still blocks its host octet, and a sibling whose address does not parse
blocks nothing — but the allocated address never textually equals such
an unparseable sibling's address, because every allocator output parses
(it can still collide with the network address the sibling denotes). -/
theorem C9_used_octets_amended :
    (∀ (server : WireGuardServer) (x : Int),
      x ∈ usedIPs server ↔
        addrOctet server.Address = some x ∨
          ∃ c ∈ server.Clients, addrOctet c.AllowedIPs = some x) ∧
    (∀ (server : WireGuardServer) (c : WireGuardClient),
      server.Clients.length + 2 ≤ int64Max → c ∈ server.Clients →
      addrOctet c.AllowedIPs = none → allocateClientIP server ≠ c.AllowedIPs) := by
  constructor
  · exact mem_usedIPs
  · intro server c hcnt hmem hnone heq
    have hp := allocateClientIP_parses server hcnt
    rw [heq, hnone] at hp
    simp at hp

/-- C9 witness: in `srvA`, the sibling at `192.168.7.3/32` (foreign
prefix) blocks octet 3; the unparseable sibling at `10.0.0.bad/32`
blocks nothing and is never textually duplicated by the allocator. -/
theorem C9_witness :
    ((3 : Int) ∈ usedIPs srvA ↔
      addrOctet srvA.Address = some 3 ∨
        ∃ c ∈ srvA.Clients, addrOctet c.AllowedIPs = some 3) ∧
    (3 : Int) ∈ usedIPs srvA ∧
    srvA.Clients.length + 2 ≤ int64Max ∧
    mkC (gstr "c3") (gstr "10.0.0.bad/32") ∈ srvA.Clients ∧
    addrOctet (mkC (gstr "c3") (gstr "10.0.0.bad/32")).AllowedIPs = none ∧
    allocateClientIP srvA ≠ (mkC (gstr "c3") (gstr "10.0.0.bad/32")).AllowedIPs :=
  ⟨C9_used_octets_amended.1 srvA 3, by decide, by decide, by decide, by decide,
    C9_used_octets_amended.2 srvA (mkC (gstr "c3") (gstr "10.0.0.bad/32"))
      (by decide) (by decide) (by decide)⟩
